import Mathlib

/-!
Shallow embedding of the streaming classification-and-aggregation pipeline of
the pangenome_ML_data_generation repository, and proofs about its claims.

The embedding covers:
* `extract_reads_from_path_GFA.py` : `load_nodes`, `process_read`,
  `filter_reads` (threshold flush into numbered batch files) and
  `merge_json_files` — the `GFA` namespace;
* `extract_reads_from_path.py` : `load_nodes` and `process_read`
  (the set-based, shared-map variant) — the `SimplePath` namespace;
* `findReads_SegmentID_new.py` / `findReads_SegmentID_pb.py` :
  `process_gam_worker` and `process_gam_file` — the `FindReadsNew` and
  `FindReadsPb` namespaces;
* `findReads_segmentID.py` : `extract_reads` and its `__main__` block —
  the `FindReadsSeg` namespace.

Python dictionaries are modelled as insertion-ordered association lists
(`List (String × α)`); `k in d` is `(lookupFirst k d).isSome`, `d[k] = v` on
a fresh key is appending `(k, v)`, and mutation of an existing key's value
updates the first (unique, under the dict invariant) matching entry in place.
JSON parse outcomes of one input line are modelled as `Option` of the parsed
record; field accesses with `.get(key, default)` are modelled by storing the
retrieved-with-default value in the corresponding structure field.
-/

/-- First-match association-list lookup: the semantics of `d[k]` / `k in d`
for a Python dict represented in insertion order. -/
def lookupFirst {α : Type} (k : String) : List (String × α) → Option α
  | [] => none
  | (k', v) :: rest => if k' = k then some v else lookupFirst k rest

/-- Python dict assignment `d[k] = v`: overwrite in place if present
(position preserved), otherwise append at the end. -/
def dictSet {α : Type} (k : String) (v : α) : List (String × α) → List (String × α)
  | [] => [(k, v)]
  | (k', v') :: rest => if k' = k then (k, v) :: rest else (k', v') :: dictSet k v rest

namespace GFA

/-- One element of `read["path"]["mapping"]` as `process_read` sees it:
`node_id` is `str(mapping["position"].get("node_id", ""))`; the `offset`
field is carried along as part of the record's data but never consulted by
this script. -/
structure GMapping where
  node_id : String
  offset : Option Int
  deriving DecidableEq, Repr

/-- `read.get("path", {})`: an absent path is the empty mapping list. -/
structure GPath where
  mapping : List GMapping
  deriving DecidableEq, Repr

/-- A successfully decoded alignment record (one JSON line of `vg view -a`).
`mapping_quality`, `score`, `quality` hold the `read.get(...)` results with
their defaults already applied. -/
structure GRead where
  name : String
  sequence : String
  mapping_quality : Int
  score : Option Int
  quality : String
  path : GPath
  deriving DecidableEq, Repr

/-- The `read_info` dictionary built at the top of `process_read`. -/
structure ReadInfo where
  read_name : String
  sequence : String
  mapping_quality : Int
  score : Option Int
  quality : String
  path : GPath
  deriving DecidableEq, Repr

/-- `read_info = {"read_name": read["name"], ..., "path": read.get("path", {})}`. -/
def read_info_of (r : GRead) : ReadInfo :=
  ⟨r.name, r.sequence, r.mapping_quality, r.score, r.quality, r.path⟩

/-- One value of the node-index dict returned by `load_nodes`
(`extract_reads_from_path_GFA.py`): strand, sequence, length, start offset. -/
structure NodeMeta where
  strand : String
  sequence : String
  length : Nat
  start_offset : Int
  deriving DecidableEq, Repr

/-- One value of the `mapped_nodes` / `merged_data` dicts: node metadata
plus the accumulated `reads` list. -/
structure MappedNode where
  strand : String
  sequence : String
  length : Nat
  start_offset : Int
  reads : List ReadInfo
  deriving DecidableEq, Repr

/-- The fresh entry `mapped_nodes[node_id] = {..., "reads": []}`. -/
def initEntry (meta : NodeMeta) : MappedNode :=
  ⟨meta.strand, meta.sequence, meta.length, meta.start_offset, []⟩

/-- `d[k]["reads"].extend(rs)` (also covering `.append` via a singleton):
extend the reads of the first entry with key `k`, leave everything else. -/
def extendReads (rs : List ReadInfo) (k : String) :
    List (String × MappedNode) → List (String × MappedNode)
  | [] => []
  | (k', v) :: rest =>
    if k' = k then (k', { v with reads := v.reads ++ rs }) :: rest
    else (k', v) :: extendReads rs k rest

/-- The body of the mapping loop of `process_read`
(`extract_reads_from_path_GFA.py`, lines 108–119) for one mapping: if the
node is in the index, initialise the node's entry if absent and then append
`read_info` — note the append is unconditional, it is not guarded by the
`node_id not in mapped_nodes` test. -/
def process_read_step (ri : ReadInfo) (node_info : List (String × NodeMeta))
    (mapped_nodes : List (String × MappedNode)) (m : GMapping) :
    List (String × MappedNode) :=
  match lookupFirst m.node_id node_info with
  | none => mapped_nodes
  | some meta =>
    extendReads [ri] m.node_id
      (if (lookupFirst m.node_id mapped_nodes).isSome then mapped_nodes
       else mapped_nodes ++ [(m.node_id, initEntry meta)])

/-- `process_read` of `extract_reads_from_path_GFA.py` (lines 94–124) on an
already-decoded record: iterate the mapping list once over an initially
empty `mapped_nodes`. -/
def process_read (r : GRead) (node_info : List (String × NodeMeta)) :
    List (String × MappedNode) :=
  r.path.mapping.foldl (process_read_step (read_info_of r) node_info) []

/-- Content of one batch JSON file. `filter_reads` serialises `results`,
which is a Python *list* of per-read `mapped_nodes` dicts, so the file is a
JSON array; `merge_json_files` expects a JSON *object* keyed by node id. -/
inductive BatchData where
  | arr : List (List (String × MappedNode)) → BatchData
  | obj : List (String × MappedNode) → BatchData
  deriving DecidableEq, Repr

/-- `f"./tmp/{output_json}_batch_{batch_index}.json"`. -/
def batch_name (output_json : String) (i : Nat) : String :=
  "tmp/" ++ output_json ++ "_batch_" ++ toString i ++ ".json"

/-- `f"./tmp/{output_json}_batch_final.json"`. -/
def final_batch_name (output_json : String) : String :=
  "tmp/" ++ output_json ++ "_batch_final.json"

/-- Loop state of `filter_reads` (lines 139–158): the pending `results`
list, the `processed_count` counter, the next `batch_index`, and the batch
files written so far. -/
structure FRState where
  results : List (List (String × MappedNode))
  processed_count : Nat
  batch_index : Nat
  batches : List (String × BatchData)
  deriving DecidableEq, Repr

/-- One iteration of the `filter_reads` loop on the next line's parse
outcome: a decoded record with a non-empty `mapped_nodes` is appended to
`results` and counted; then — for every iteration, counted or not — the
`processed_count % threshold == 0` test fires a batch save (the source
hard-codes `threshold = 5000000`). -/
def fr_step (threshold : Nat) (output_json : String)
    (node_info : List (String × NodeMeta)) (st : FRState) (line : Option GRead) :
    FRState :=
  let mapped := line.map (fun r => process_read r node_info)
  let st1 : FRState :=
    match mapped with
    | some m =>
      if m = [] then st
      else { st with results := st.results ++ [m],
                     processed_count := st.processed_count + 1 }
    | none => st
  if st1.processed_count % threshold = 0 then
    { st1 with results := [],
               batch_index := st1.batch_index + 1,
               batches := st1.batches ++
                 [(batch_name output_json st1.batch_index, BatchData.arr st1.results)] }
  else st1

/-- The state of the `filter_reads` loop after consuming the whole stream,
before the final-batch save. -/
def filter_reads_state (threshold : Nat) (output_json : String)
    (node_info : List (String × NodeMeta)) (stream : List (Option GRead)) :
    FRState :=
  stream.foldl (fr_step threshold output_json node_info) ⟨[], 0, 1, []⟩

/-- `filter_reads` (lines 132–168) up to the merge call: fold the stream of
parse outcomes, then save any remaining `results` as the final batch.
Returns the list of batch files written under `tmp/`, in creation order. -/
def filter_reads (threshold : Nat) (output_json : String)
    (node_info : List (String × NodeMeta)) (stream : List (Option GRead)) :
    List (String × BatchData) :=
  let st := filter_reads_state threshold output_json node_info stream
  if st.results = [] then st.batches
  else st.batches ++ [(final_batch_name output_json, BatchData.arr st.results)]

end GFA

/-- Python string `<=`: lexicographic comparison of code points. -/
def charListLe : List Char → List Char → Bool
  | [], _ => true
  | _ :: _, [] => false
  | a :: as, b :: bs =>
    if a.toNat < b.toNat then true
    else if b.toNat < a.toNat then false
    else charListLe as bs

/-- Python string comparison on whole strings. -/
def strLe (a b : String) : Bool := charListLe a.data b.data

/-- Insert a named file into a name-sorted list (stable). -/
def insertByName {α : Type} (x : String × α) : List (String × α) → List (String × α)
  | [] => [x]
  | y :: ys => if strLe x.1 y.1 then x :: y :: ys else y :: insertByName x ys

/-- `sorted(glob.glob(...))`: the directory listing sorted by full filename
in Python string order. -/
def sortByName {α : Type} (l : List (String × α)) : List (String × α) :=
  l.foldr insertByName []

namespace GFA

/-- One step of the inner loop of `merge_json_files`:
`if node_id not in merged_data: merged_data[node_id] = node_data else:
merged_data[node_id]["reads"].extend(node_data["reads"])`. -/
def merge_step (merged : List (String × MappedNode)) (kv : String × MappedNode) :
    List (String × MappedNode) :=
  if (lookupFirst kv.1 merged).isSome then extendReads kv.2.reads kv.1 merged
  else merged ++ [kv]

/-- The inner loop of `merge_json_files` over one (object-shaped) batch. -/
def merge_batch (merged : List (String × MappedNode))
    (kvs : List (String × MappedNode)) : List (String × MappedNode) :=
  kvs.foldl merge_step merged

/-- Processing of one batch file by `merge_json_files`. When the file holds
a JSON array — which is what `filter_reads` writes — the source's
`batch_data.items()` raises `AttributeError`; that failure is the `error`
branch. -/
def merge_file_step (merged : List (String × MappedNode))
    (file : String × BatchData) : Except String (List (String × MappedNode)) :=
  match file.2 with
  | BatchData.arr _ =>
    Except.error "AttributeError: list object has no attribute items"
  | BatchData.obj kvs => Except.ok (merge_batch merged kvs)

/-- `merge_json_files` (lines 181–200): consume the batch files sorted by
filename and fold each into `merged_data`. -/
def merge_json_files (files : List (String × BatchData)) :
    Except String (List (String × MappedNode)) :=
  (sortByName files).foldlM merge_file_step []

/-- Merging a list of object-shaped batch contents in the given order: what
`merge_json_files` computes once every file is a JSON object. -/
def merge_obj_list (files : List (String × List (String × MappedNode))) :
    List (String × MappedNode) :=
  files.foldl (fun merged f => merge_batch merged f.2) []

/-- The `reads` list recorded for a node id in a merged map (empty when the
node is absent). -/
def readsOf (nid : String) (m : List (String × MappedNode)) : List ReadInfo :=
  match lookupFirst nid m with
  | some g => g.reads
  | none => []

/-- All reads a single batch contributes to a node id, in batch order. -/
def batchReads (nid : String) (kvs : List (String × MappedNode)) :
    List ReadInfo :=
  (kvs.map (fun kv => if kv.1 = nid then kv.2.reads else [])).flatten

/-- The whole `filter_reads` run including its final `merge_json_files`
call: flush batches, then merge everything found under `tmp/`. -/
def filter_and_merge (threshold : Nat) (output_json : String)
    (node_info : List (String × NodeMeta)) (stream : List (Option GRead)) :
    Except String (List (String × MappedNode)) :=
  merge_json_files (filter_reads threshold output_json node_info stream)

/-- The number of records serialised into each batch file, in creation
order. -/
def batch_sizes (batches : List (String × BatchData)) : List Nat :=
  batches.map (fun b =>
    match b.2 with
    | BatchData.arr l => l.length
    | BatchData.obj o => o.length)

/-- `filter_reads` with the exit status of the piped `vg view` producer made
explicit: the source obtains `process` from `subprocess.Popen`, reads its
stdout to EOF and never consults `process.returncode` or calls
`process.wait()`, so the parameter is unused. -/
def filter_reads_with_rc (rc : Int) (threshold : Nat) (output_json : String)
    (node_info : List (String × NodeMeta)) (stream : List (Option GRead)) :
    List (String × BatchData) :=
  filter_reads threshold output_json node_info stream

end GFA

namespace SimplePath

/-- One value of the `node_info` dict built by `load_nodes`
(`extract_reads_from_path.py`, lines 20–31). -/
structure SNodeMeta where
  sequence : String
  length : Nat
  deriving DecidableEq, Repr

/-- One entry of the input document's `nodes` list, already reduced to the
two fields the loader reads: `str(node["id"])` and `node["sequence"]`. -/
structure SNodeEntry where
  id : String
  sequence : String
  deriving DecidableEq, Repr

/-- `load_nodes`: build `node_info` by iterating the `nodes` list and
assigning `node_info[node_id] = {"sequence": ..., "length": len(...)}`.
There is no emptiness or duplicate check: assignment semantics mean a
repeated id silently overwrites the earlier entry, whatever its metadata. -/
def load_nodes (nodes : List SNodeEntry) : List (String × SNodeMeta) :=
  nodes.foldl (fun node_info n =>
    dictSet n.id ⟨n.sequence, n.sequence.length⟩ node_info) []

/-- One value of the shared `node_read_map`: node metadata plus reads. -/
structure SimpleNode where
  sequence : String
  length : Nat
  reads : List GFA.ReadInfo
  deriving DecidableEq, Repr

/-- The first loop of `process_read` (`extract_reads_from_path.py`, lines
46–50): the `mapped_nodes` *set* of node ids the read maps to, modelled as
a duplicate-free list in first-insertion order (set membership is all that
the second loop consumes). -/
def mapped_node_set (r : GFA.GRead) (node_info : List (String × SNodeMeta)) :
    List String :=
  r.path.mapping.foldl (fun s m =>
    if (lookupFirst m.node_id node_info).isSome then
      if m.node_id ∈ s then s else s ++ [m.node_id]
    else s) []

/-- The second loop of `process_read` (lines 52–61): under the lock, for
each node id in the set, initialise the entry if absent and append
`read_info` once. -/
def store_read (r : GFA.GRead) (node_info : List (String × SNodeMeta))
    (node_read_map : List (String × SimpleNode)) : List (String × SimpleNode) :=
  (mapped_node_set r node_info).foldl (fun acc nid =>
    match lookupFirst nid node_info with
    | none => acc
    | some meta =>
      let acc' :=
        if (lookupFirst nid acc).isSome then acc
        else acc ++ [(nid, ⟨meta.sequence, meta.length, []⟩)]
      acc'.map (fun p =>
        if p.1 = nid then (p.1, { p.2 with reads := p.2.reads ++ [GFA.read_info_of r] })
        else p)) node_read_map

end SimplePath

namespace Reference

/-- The duplicate-free list of this record's mapped node ids that are
present in the index, in first-occurrence order. -/
def indexed_nodes (r : GFA.GRead) (node_info : List (String × GFA.NodeMeta)) :
    List String :=
  r.path.mapping.foldl (fun s m =>
    if (lookupFirst m.node_id node_info).isSome then
      if m.node_id ∈ s then s else s ++ [m.node_id]
    else s) []

/-- Modelled from the spec: the reference single-threaded, unbounded-memory
run — classify every decoded record against the index and group the read
names in one in-memory map, each record contributing at most once per node. -/
def grouped (node_info : List (String × GFA.NodeMeta))
    (stream : List (Option GFA.GRead)) : List (String × List String) :=
  stream.foldl (fun acc line =>
    match line with
    | none => acc
    | some r =>
      (indexed_nodes r node_info).foldl (fun acc nid =>
        match lookupFirst nid acc with
        | some names => dictSet nid (names ++ [r.name]) acc
        | none => acc ++ [(nid, [r.name])]) acc) []

/-- Modelled from the spec: the distinct (read name, node id) pairs of the
reference run. -/
def pairs (node_info : List (String × GFA.NodeMeta))
    (stream : List (Option GFA.GRead)) : List (String × String) :=
  ((grouped node_info stream).foldr
    (fun p acc => p.2.map (fun nm => (nm, p.1)) ++ acc) []).dedup

end Reference

/-- One aligned-read record appended by the region-keyed variants
(`findReads_SegmentID_new.py` line 46–50 / `findReads_SegmentID_pb.py`
line 41–45). -/
structure RInfo where
  read_name : String
  sequence_length : Nat
  mapping_position : Int
  deriving DecidableEq, Repr

/-- The `aligned_reads` lists of `json_data`, keyed by region (every region
key was initialised by `load_json`). -/
abbrev RegionMap := List (String × List RInfo)

/-- `json_data[region]["aligned_reads"].append(info)`: extend the first
entry with the given region key; a missing key (impossible after
`load_json`) leaves the map unchanged. -/
def appendAt (region : String) (info : RInfo) : RegionMap → RegionMap
  | [] => []
  | (k, rs) :: rest =>
    if k = region then (k, rs ++ [info]) :: rest
    else (k, rs) :: appendAt region info rest

/-- Total number of aligned-read entries across all regions. -/
def total_reads (data : RegionMap) : Nat :=
  (data.map (fun p => p.2.length)).sum

namespace FindReadsNew

/-- `mapping["position"]` as a JSON object: both `node_id` and `offset` may
be absent. -/
structure NPos where
  node_id : Option String
  offset : Option Int
  deriving DecidableEq, Repr

/-- One element of `read["path"]["mapping"]`; the `position` key may be
absent. -/
structure NMapping where
  position : Option NPos
  deriving DecidableEq, Repr

/-- A decoded read of `findReads_SegmentID_new.py`; the `path` key may be
absent. -/
structure NRead where
  name : String
  sequence : String
  path : Option (List NMapping)
  deriving DecidableEq, Repr

/-- The mapping loop of `process_gam_worker` (lines 34–56) for one read
body: skip mappings without `position`/`node_id` or whose segment is not in
the index; on the first indexed segment, append the read summary to that
segment's region — with `offset` defaulted to 0 — and `break`. Returns the
updated map and the `processed` flag. -/
def worker_loop (name : String) (seq_len : Nat)
    (segment_to_region : List (String × String)) :
    List NMapping → RegionMap → RegionMap × Bool
  | [], data => (data, false)
  | m :: rest, data =>
    match m.position with
    | none => worker_loop name seq_len segment_to_region rest data
    | some pos =>
      match pos.node_id with
      | none => worker_loop name seq_len segment_to_region rest data
      | some nid =>
        match lookupFirst nid segment_to_region with
        | none => worker_loop name seq_len segment_to_region rest data
        | some region =>
          (appendAt region ⟨name, seq_len, pos.offset.getD 0⟩ data, true)

/-- `process_gam_worker` restricted to one dequeued read: reads without a
`path` key are not assigned to any region. -/
def process_gam_worker_read (r : NRead)
    (segment_to_region : List (String × String)) (data : RegionMap) :
    RegionMap × Bool :=
  match r.path with
  | none => (data, false)
  | some ms => worker_loop r.name r.sequence.length segment_to_region ms data

/-- Whether one mapping would be the one the worker assigns the read to:
its position and node id are present and the index maps the node to a
region. Returns the region and the summary the worker would append. -/
def mapping_hit (name : String) (seq_len : Nat)
    (segment_to_region : List (String × String)) (m : NMapping) :
    Option (String × RInfo) :=
  match m.position with
  | none => none
  | some pos =>
    match pos.node_id with
    | none => none
    | some nid =>
      match lookupFirst nid segment_to_region with
      | none => none
      | some region => some (region, ⟨name, seq_len, pos.offset.getD 0⟩)

/-- The first mapping (in mapping-list order) carrying a position with a
node id that the index maps to a region, together with the summary the
worker would append for it. -/
def first_indexed (r : NRead) (segment_to_region : List (String × String)) :
    Option (String × RInfo) :=
  match r.path with
  | none => none
  | some ms => ms.findSome? (mapping_hit r.name r.sequence.length segment_to_region)

/-- `process_gam_file` (lines 69–96) flattened to its sequential meaning:
each line either fails to decode — a diagnostic is printed and nothing else
happens — or is enqueued and eventually handled by `process_gam_worker`,
which bumps `processed_count` exactly when the read was assigned. Returns
(json_data, processed_count, decode_failures). -/
def process_gam_file (stream : List (Option NRead))
    (segment_to_region : List (String × String)) (data : RegionMap) :
    RegionMap × Nat × Nat :=
  stream.foldl (fun st line =>
    match line with
    | none => (st.1, st.2.1, st.2.2 + 1)
    | some r =>
      let out := process_gam_worker_read r segment_to_region st.1
      (out.1, st.2.1 + (if out.2 then 1 else 0), st.2.2)) (data, 0, 0)

end FindReadsNew

namespace FindReadsPb

/-- One protobuf `Mapping`: `position.node_id` and `position.offset` always
read back a value (protobuf defaults), so they are plain fields. -/
structure PbMapping where
  node_id : String
  offset : Int
  deriving DecidableEq, Repr

/-- One protobuf `Alignment`: `read.path.mapping` is always accessible. -/
structure PbRead where
  name : String
  sequence : String
  path : List PbMapping
  deriving DecidableEq, Repr

/-- The mapping loop of `process_gam_worker` (`findReads_SegmentID_pb.py`
lines 34–51): append to the region of the first indexed segment and
`break`. -/
def worker_loop (name : String) (seq_len : Nat)
    (segment_to_region : List (String × String)) :
    List PbMapping → RegionMap → RegionMap × Bool
  | [], data => (data, false)
  | m :: rest, data =>
    match lookupFirst m.node_id segment_to_region with
    | none => worker_loop name seq_len segment_to_region rest data
    | some region => (appendAt region ⟨name, seq_len, m.offset⟩ data, true)

/-- `process_gam_worker` restricted to one dequeued protobuf read. -/
def process_gam_worker_read (r : PbRead)
    (segment_to_region : List (String × String)) (data : RegionMap) :
    RegionMap × Bool :=
  worker_loop r.name r.sequence.length segment_to_region r.path data

/-- Whether one protobuf mapping would be the one the worker assigns the
read to. -/
def mapping_hit (name : String) (seq_len : Nat)
    (segment_to_region : List (String × String)) (m : PbMapping) :
    Option (String × RInfo) :=
  match lookupFirst m.node_id segment_to_region with
  | none => none
  | some region => some (region, ⟨name, seq_len, m.offset⟩)

/-- The first mapping whose segment the index maps to a region, with the
summary the worker would append. -/
def first_indexed (r : PbRead) (segment_to_region : List (String × String)) :
    Option (String × RInfo) :=
  r.path.findSome? (mapping_hit r.name r.sequence.length segment_to_region)

end FindReadsPb

namespace FindReadsSeg

/-- The per-read test of `extract_reads` (`findReads_segmentID.py`, lines
21–26): does any mapping carry a position whose node id is in
`segment_ids`?  (The source appends `read['name']` and breaks at the first
such mapping, so one name is appended per matching read.) -/
def has_segment (r : FindReadsNew.NRead) (segment_ids : List String) : Bool :=
  match r.path with
  | none => false
  | some ms =>
    ms.any (fun m =>
      match m.position with
      | none => false
      | some pos =>
        match pos.node_id with
        | none => false
        | some nid => segment_ids.contains nid)

/-- `extract_reads` (lines 6–28): run `vg view`, and if its exit code is
non-zero print an error and return `None`; otherwise return the names of
the matching reads. -/
def extract_reads (rc : Int) (stdout_lines : List FindReadsNew.NRead)
    (segment_ids : List String) : Option (List String) :=
  if rc ≠ 0 then none
  else some (stdout_lines.filterMap (fun r =>
    if has_segment r segment_ids then some r.name else none))

/-- The `__main__` block: print the reads when `extract_reads` returned a
non-empty list, otherwise print the not-found message; either way the
script falls off the end of `__main__` and exits with status 0 — there is
no `sys.exit` on the error path. Result: (exit code, printed message). -/
def main_run (rc : Int) (stdout_lines : List FindReadsNew.NRead)
    (segment_ids : List String) : Nat × String :=
  match extract_reads rc stdout_lines segment_ids with
  | some (_ :: _) => (0, "Reads containing specified segments")
  | _ => (0, "No reads found containing the specified segment IDs.")

end FindReadsSeg

namespace Samples

def metaA : GFA.NodeMeta := ⟨"+", "ACGT", 4, 0⟩

def idxGFA : List (String × GFA.NodeMeta) := [("1", metaA)]

def idxS : List (String × SimplePath.SNodeMeta) := [("1", ⟨"ACGT", 4⟩)]

def mkRead (nm : String) (nids : List String) : GFA.GRead :=
  ⟨nm, "ACGT", 60, some 10, "IIII", ⟨nids.map (fun nid => ⟨nid, some 0⟩)⟩⟩

def readA : GFA.GRead := mkRead "A" ["1"]

def readDup : GFA.GRead := mkRead "A" ["1", "1"]

def nonQual : GFA.GRead := mkRead "X" ["9"]

def stream7 : List (Option GFA.GRead) :=
  (List.range 7).map (fun i => some (mkRead ("A" ++ toString (i + 1)) ["1"]))

def readN : FindReadsNew.NRead := ⟨"A", "ACGT", some [⟨some ⟨some "1", some 0⟩⟩]⟩

end Samples

namespace Samples

/-- A read summary distinguishable by its name, as stored in checkpoint `i`. -/
def info (i : Nat) : GFA.ReadInfo := ⟨"r" ++ toString i, "", 0, none, "", ⟨[]⟩⟩

/-- Object-shaped checkpoint number `i`, carrying one read for node `n`,
named as `filter_reads` names batch `i`. -/
def chk (i : Nat) : String × List (String × GFA.MappedNode) :=
  (GFA.batch_name "o" i, [("n", ⟨"+", "", 0, 0, [info i]⟩)])

/-- Ten checkpoints with numeric suffixes 1..10. -/
def files10 : List (String × List (String × GFA.MappedNode)) :=
  (List.range 10).map (fun i => chk (i + 1))

/-- The grouped entry `process_read` produces for node 1 of `readA`. -/
def gA : GFA.MappedNode := ⟨"+", "ACGT", 4, 0, [GFA.read_info_of readA]⟩

end Samples

/-- The durable state the Merger touches: the batch files under `tmp/`
(read-only for the merger) and the output file. -/
structure MergerState where
  batch_dir : List (String × GFA.BatchData)
  output : Option (List (String × GFA.MappedNode))
  deriving DecidableEq, Repr

/-- One invocation of `merge_json_files` over the batch directory: the
batch files are only read; on success the merged map is written to the
output path (atomically, via temp file and rename), and on the
`AttributeError` failure the run dies with nothing written. -/
def run_merger (s : MergerState) : MergerState :=
  match GFA.merge_json_files s.batch_dir with
  | Except.ok merged => { s with output := some merged }
  | Except.error _ => s

/-- Looking up a key immediately after `dictSet` on that key returns the
assigned value. -/
theorem lookupFirst_dictSet_self {α : Type} (k : String) (v : α) :
    ∀ l : List (String × α), lookupFirst k (dictSet k v l) = some v := by
  intro l
  induction l with
  | nil => simp [dictSet, lookupFirst]
  | cons p rest ih =>
    obtain ⟨k', v'⟩ := p
    by_cases h : k' = k
    · simp [dictSet, h, lookupFirst]
    · simp [dictSet, h, lookupFirst, ih]

/-- C1 (code bug): on a one-record stream whose record maps to an indexed
node, the threshold-flushing pipeline's own merge step fails — the batch
checkpoint is a JSON array and `merge_json_files` calls `.items()` on it —
so no Output is produced at all, while the reference single-threaded,
unbounded-memory run over the same input yields the distinct pair
(`"A"`, `"1"`). The claimed set equality between pipeline Output and the
reference run therefore cannot hold. -/
theorem c1_pipeline_merge_fails_on_produced_checkpoints :
    GFA.filter_and_merge 5000000 "out" Samples.idxGFA [some Samples.readA]
      = Except.error "AttributeError: list object has no attribute items"
    ∧ Reference.pairs Samples.idxGFA [some Samples.readA] = [("A", "1")] :=
  ⟨by rfl, by decide⟩

/-- C2 (code bug): for the record `readDup`, whose mapping list references
the indexed node `"1"` twice, `process_read` of
`extract_reads_from_path_GFA.py` appends the read's summary twice to that
node's `reads` (the append is outside the `not in mapped_nodes` guard),
while the set-based `process_read` of `extract_reads_from_path.py`
contributes exactly one summary. The "at most one ReadSummary per node per
record" property fails on the GFA variant. -/
theorem c2_gfa_duplicate_mapping_double_append :
    (GFA.process_read Samples.readDup Samples.idxGFA).map
        (fun p => (p.1, p.2.reads.length)) = [("1", 2)]
    ∧ (SimplePath.store_read Samples.readDup Samples.idxS []).map
        (fun p => (p.1, p.2.reads.length)) = [("1", 1)] := by decide

/-- C4 (code bug): with threshold 3, a stream of exactly 7 qualifying
records does flush checkpoints of sizes 3, 3, 1 — but prepending a single
non-qualifying record makes the loop flush an extra (empty) checkpoint with
no threshold crossing at all, because the `processed_count % threshold == 0`
test runs on every iteration and fires at count 0; and the merged Output of
the 7-record run is never produced, the merge step failing on the
array-shaped batch files. -/
theorem c4_flush_trace_with_nonqualifying_record :
    GFA.batch_sizes (GFA.filter_reads 3 "o" Samples.idxGFA Samples.stream7)
      = [3, 3, 1]
    ∧ GFA.batch_sizes (GFA.filter_reads 3 "o" Samples.idxGFA
        (some Samples.nonQual :: Samples.stream7)) = [0, 3, 3, 1]
    ∧ GFA.filter_and_merge 3 "o" Samples.idxGFA Samples.stream7
        = Except.error "AttributeError: list object has no attribute items" :=
  ⟨by decide, by decide, by rfl⟩

/-- C6 counterexample: with the piped producer exiting 1,
`findReads_segmentID.py` prints the not-found message and the process exits
0 (the same input under exit code 0 finds read `"A"`, so the failure is
silently absorbed); and the GFA `filter_reads` pipeline behaves identically
under producer exit codes 1 and 0, still writing batch artifacts. This
refutes "transitions to Failed, reports failure with a non-zero exit, and
produces no Output artifact". -/
theorem c6_nonzero_exit_not_fatal_counterexample :
    FindReadsSeg.main_run 1 [Samples.readN] ["1"]
      = (0, "No reads found containing the specified segment IDs.")
    ∧ FindReadsSeg.extract_reads 0 [Samples.readN] ["1"] = some ["A"]
    ∧ GFA.filter_reads_with_rc 1 5000000 "out" Samples.idxGFA [some Samples.readA]
        = GFA.filter_reads_with_rc 0 5000000 "out" Samples.idxGFA [some Samples.readA]
    ∧ GFA.filter_reads_with_rc 1 5000000 "out" Samples.idxGFA [some Samples.readA] ≠ [] :=
  ⟨by decide, by decide, rfl, by decide⟩

/-- C6 amended: a non-zero exit of the piped producer is not fatal — the
GFA pipeline never consults the exit status (its behaviour is a constant
function of it), and `extract_reads` detects the failure, returns no reads,
but the script still exits 0. -/
theorem c6_exit_code_ignored_amended :
    (∀ (rc : Int) (threshold : Nat) (out : String)
        (ni : List (String × GFA.NodeMeta)) (s : List (Option GFA.GRead)),
      GFA.filter_reads_with_rc rc threshold out ni s
        = GFA.filter_reads threshold out ni s)
    ∧ ∀ (rc : Int) (lines : List FindReadsNew.NRead) (ids : List String),
        rc ≠ 0 →
        FindReadsSeg.extract_reads rc lines ids = none
        ∧ (FindReadsSeg.main_run rc lines ids).1 = 0 := by
  refine ⟨fun _ _ _ _ _ => rfl, fun rc lines ids h => ⟨?_, ?_⟩⟩
  · simp [FindReadsSeg.extract_reads, h]
  · simp [FindReadsSeg.main_run, FindReadsSeg.extract_reads, h]

/-- Witness for the C6 amended theorem at exit code 1. -/
theorem c6_exit_code_ignored_amended_witness :
    FindReadsSeg.extract_reads 1 [Samples.readN] ["1"] = none
    ∧ (FindReadsSeg.main_run 1 [Samples.readN] ["1"]).1 = 0 :=
  c6_exit_code_ignored_amended.2 1 [Samples.readN] ["1"] (by decide)

/-- C7 counterexample: the summary stored for node `"1"` of `readA` carries
the record's `path` — including its (non-empty) full mapping list — under
its `path` key, refuting "the record's full Mapping list is not retained in
the Output". -/
theorem c7_path_retained_counterexample :
    (GFA.process_read Samples.readA Samples.idxGFA).map
        (fun p => (p.1, p.2.reads.map (fun s => s.path)))
      = [("1", [Samples.readA.path])]
    ∧ Samples.readA.path.mapping.length = 1 := by decide

/-- C8: the Merger is idempotent as an operation on the durable state —
running it twice over the same batch directory yields the same state as
running it once (batch files are never mutated, and the output is
overwritten with identical content) — and merging zero checkpoints
succeeds, producing an empty Output. -/
theorem c8_merge_idempotent_and_empty :
    (∀ s : MergerState, run_merger (run_merger s) = run_merger s)
    ∧ run_merger ⟨[], none⟩ = ⟨[], some []⟩ := by
  constructor
  · intro s
    obtain ⟨bd, out⟩ := s
    unfold run_merger
    cases h : GFA.merge_json_files bd <;> simp [h]
  · rfl

/-- C9 counterexample: Node Index construction does not fail on an empty
input — it returns an empty index — and duplicate ids with conflicting
metadata are silently collapsed (last occurrence wins) rather than
rejected. No `IndexError`-like failure path exists in `load_nodes`. -/
theorem c9_load_nodes_no_failure_counterexample :
    SimplePath.load_nodes [] = []
    ∧ SimplePath.load_nodes [⟨"1", "AA"⟩, ⟨"1", "CCC"⟩] = [("1", ⟨"CCC", 3⟩)] := by
  decide

/-- C9 amended: Node Index construction never fails: an empty node list
yields an empty index, and a duplicated id is silently overwritten by its
last occurrence, whether or not the metadata conflicts. -/
theorem c9_load_nodes_total_last_wins :
    SimplePath.load_nodes [] = []
    ∧ ∀ (pre : List SimplePath.SNodeEntry) (nid sq : String),
        lookupFirst nid (SimplePath.load_nodes (pre ++ [⟨nid, sq⟩]))
          = some ⟨sq, sq.length⟩ := by
  refine ⟨rfl, fun pre nid sq => ?_⟩
  unfold SimplePath.load_nodes
  rw [List.foldl_append]
  exact lookupFirst_dictSet_self nid _ _

/-- Lookup across appending a single fresh entry at the end. -/
theorem lookupFirst_append_single {α : Type} (nid k : String) (v : α) :
    ∀ l : List (String × α),
      lookupFirst nid (l ++ [(k, v)]) =
        match lookupFirst nid l with
        | some g => some g
        | none => if k = nid then some v else none := by
  intro l
  induction l with
  | nil => simp [lookupFirst]
  | cons p rest ih =>
    obtain ⟨k', v'⟩ := p
    by_cases h : k' = nid
    · simp [lookupFirst, h]
    · simp [lookupFirst, h, ih]

/-- `extendReads` changes exactly the first entry with the extended key. -/
theorem lookupFirst_extendReads (rs : List GFA.ReadInfo) (k nid : String) :
    ∀ l : List (String × GFA.MappedNode),
      lookupFirst nid (GFA.extendReads rs k l) =
        if k = nid then
          (lookupFirst nid l).map (fun g => { g with reads := g.reads ++ rs })
        else lookupFirst nid l := by
  intro l
  induction l with
  | nil => by_cases h : k = nid <;> simp [GFA.extendReads, lookupFirst, h]
  | cons p rest ih =>
    obtain ⟨k', v⟩ := p
    by_cases hk : k' = k
    · subst hk
      by_cases hn : k' = nid
      · subst hn
        simp [GFA.extendReads, lookupFirst]
      · simp [GFA.extendReads, lookupFirst, hn]
    · by_cases hn : k' = nid
      · have hnk : ¬ nid = k := fun he => hk (hn.trans he)
        have hkn : ¬ k = nid := fun he => hnk he.symm
        simp [GFA.extendReads, lookupFirst, hk, hn, hkn, hnk]
      · simp [GFA.extendReads, lookupFirst, hk, hn, ih]

/-- One `merge_json_files` inner step appends exactly the incoming entry's
reads (for its key) to the accumulated per-node reads. -/
theorem readsOf_merge_step (nid : String) (merged : List (String × GFA.MappedNode))
    (kv : String × GFA.MappedNode) :
    GFA.readsOf nid (GFA.merge_step merged kv)
      = GFA.readsOf nid merged ++ (if kv.1 = nid then kv.2.reads else []) := by
  obtain ⟨k, v⟩ := kv
  by_cases hs : (lookupFirst k merged).isSome = true
  · simp only [GFA.merge_step, GFA.readsOf, hs, if_true]
    rw [lookupFirst_extendReads]
    by_cases hk : k = nid
    · subst hk
      obtain ⟨g, hg⟩ := Option.isSome_iff_exists.mp hs
      simp [hg]
    · simp [hk]
  · simp only [GFA.merge_step, GFA.readsOf, if_neg hs]
    rw [lookupFirst_append_single]
    by_cases hk : k = nid
    · subst hk
      have hnone : lookupFirst k merged = none :=
        Option.not_isSome_iff_eq_none.mp (by simpa using hs)
      simp [hnone]
    · cases h : lookupFirst nid merged <;> simp [hk, h]

/-- Merging one batch appends exactly that batch's contributions per node. -/
theorem readsOf_merge_batch (nid : String) :
    ∀ (kvs : List (String × GFA.MappedNode)) (merged : List (String × GFA.MappedNode)),
      GFA.readsOf nid (GFA.merge_batch merged kvs)
        = GFA.readsOf nid merged ++ GFA.batchReads nid kvs := by
  intro kvs
  induction kvs with
  | nil => intro merged; simp [GFA.merge_batch, GFA.batchReads]
  | cons kv rest ih =>
    intro merged
    have hstep : GFA.merge_batch merged (kv :: rest)
        = GFA.merge_batch (GFA.merge_step merged kv) rest := rfl
    rw [hstep, ih, readsOf_merge_step]
    simp [GFA.batchReads, List.append_assoc]

/-- Folding batches accumulates each batch's contributions in fold order. -/
theorem readsOf_merge_obj_foldl (nid : String) :
    ∀ (files : List (String × List (String × GFA.MappedNode)))
      (acc : List (String × GFA.MappedNode)),
      GFA.readsOf nid (files.foldl (fun merged f => GFA.merge_batch merged f.2) acc)
        = GFA.readsOf nid acc ++ (files.map (fun f => GFA.batchReads nid f.2)).flatten := by
  intro files
  induction files with
  | nil => intro acc; simp
  | cons f rest ih =>
    intro acc
    simp only [List.foldl_cons, List.map_cons, List.flatten_cons]
    rw [ih, readsOf_merge_batch, List.append_assoc]

/-- `insertByName` only examines names, so it commutes with mapping over
the file contents. -/
theorem insertByName_map_snd {α β : Type} (g : α → β) (x : String × α) :
    ∀ l : List (String × α),
      insertByName (x.1, g x.2) (l.map (fun p => (p.1, g p.2)))
        = (insertByName x l).map (fun p => (p.1, g p.2)) := by
  intro l
  induction l with
  | nil => rfl
  | cons y ys ih =>
    by_cases h : strLe x.1 y.1 = true
    · simp [insertByName, h]
    · simp [insertByName, h, ih]

/-- `sortByName` commutes with mapping over the file contents. -/
theorem sortByName_map_snd {α β : Type} (g : α → β) :
    ∀ l : List (String × α),
      sortByName (l.map (fun p => (p.1, g p.2)))
        = (sortByName l).map (fun p => (p.1, g p.2)) := by
  intro l
  induction l with
  | nil => rfl
  | cons x xs ih =>
    show insertByName (x.1, g x.2) (sortByName (xs.map (fun p => (p.1, g p.2))))
        = (insertByName x (sortByName xs)).map (fun p => (p.1, g p.2))
    rw [ih, insertByName_map_snd]

/-- Over object-shaped files, the effectful fold of `merge_json_files`
never fails and equals the pure fold. -/
theorem foldlM_merge_obj :
    ∀ (files : List (String × List (String × GFA.MappedNode)))
      (acc : List (String × GFA.MappedNode)),
      (files.map (fun f => (f.1, GFA.BatchData.obj f.2))).foldlM GFA.merge_file_step acc
        = Except.ok (files.foldl (fun merged f => GFA.merge_batch merged f.2) acc) := by
  intro files
  induction files with
  | nil => intro acc; rfl
  | cons f rest ih => intro acc; exact ih (GFA.merge_batch acc f.2)

/-- C3 counterexample: ten object-shaped checkpoints with numeric suffixes
1..10 are consumed by the Merger in *filename* order, which puts
`..._batch_10.json` before `..._batch_2.json`; the merged reads for node
`"n"` come out in lexicographic, not numeric, checkpoint order. -/
theorem c3_lexicographic_order_counterexample :
    GFA.merge_json_files (Samples.files10.map (fun f => (f.1, GFA.BatchData.obj f.2)))
      = Except.ok (GFA.merge_obj_list (sortByName Samples.files10))
    ∧ (GFA.readsOf "n" (GFA.merge_obj_list (sortByName Samples.files10))).map
        (fun s => s.read_name)
      = ["r1", "r10", "r2", "r3", "r4", "r5", "r6", "r7", "r8", "r9"]
    ∧ (GFA.readsOf "n" (GFA.merge_obj_list (sortByName Samples.files10))).map
        (fun s => s.read_name)
      ≠ ["r1", "r2", "r3", "r4", "r5", "r6", "r7", "r8", "r9", "r10"] :=
  ⟨by rfl, by decide, by decide⟩

/-- C3 amended: the Merger consumes checkpoint files sorted by *filename*
(Python string order, which agrees with numeric suffix order only while
all suffixes have the same digit count), and for each node id the merged
`reads` list is the concatenation of that node's reads across the
checkpoints in that sorted order. -/
theorem c3_merge_concats_in_sorted_filename_order :
    ∀ (files : List (String × List (String × GFA.MappedNode))) (nid : String),
      GFA.merge_json_files (files.map (fun f => (f.1, GFA.BatchData.obj f.2)))
        = Except.ok (GFA.merge_obj_list (sortByName files))
      ∧ GFA.readsOf nid (GFA.merge_obj_list (sortByName files))
        = ((sortByName files).map (fun f => GFA.batchReads nid f.2)).flatten := by
  intro files nid
  constructor
  · unfold GFA.merge_json_files GFA.merge_obj_list
    rw [sortByName_map_snd]
    exact foldlM_merge_obj _ _
  · unfold GFA.merge_obj_list
    have h := readsOf_merge_obj_foldl nid (sortByName files) []
    simpa [GFA.readsOf, lookupFirst] using h

/-- A successful first-match lookup is membership. -/
theorem lookupFirst_mem {α : Type} {k : String} {v : α} :
    ∀ {l : List (String × α)}, lookupFirst k l = some v → (k, v) ∈ l := by
  intro l
  induction l with
  | nil => intro h; simp [lookupFirst] at h
  | cons p rest ih =>
    obtain ⟨k', v'⟩ := p
    intro h
    by_cases hk : k' = k
    · subst hk
      simp [lookupFirst] at h
      subst h
      exact List.mem_cons_self _ _
    · simp only [lookupFirst, if_neg hk] at h
      exact List.mem_cons_of_mem _ (ih h)

/-- Every entry of `extendReads rs k l` has the reads of some entry of `l`,
possibly extended by `rs`. -/
theorem mem_extendReads {rs : List GFA.ReadInfo} {k : String} :
    ∀ {l : List (String × GFA.MappedNode)} {p : String × GFA.MappedNode},
      p ∈ GFA.extendReads rs k l →
      ∃ q ∈ l, p.2.reads = q.2.reads ∨ p.2.reads = q.2.reads ++ rs := by
  intro l
  induction l with
  | nil => intro p hp; simp [GFA.extendReads] at hp
  | cons q rest ih =>
    intro p hp
    obtain ⟨k', v⟩ := q
    by_cases hk : k' = k
    · simp only [GFA.extendReads, if_pos hk] at hp
      rcases List.mem_cons.mp hp with hp | hp
      · exact ⟨(k', v), List.mem_cons_self _ _, Or.inr (by rw [hp])⟩
      · exact ⟨p, List.mem_cons_of_mem _ hp, Or.inl rfl⟩
    · simp only [GFA.extendReads, if_neg hk] at hp
      rcases List.mem_cons.mp hp with hp | hp
      · exact ⟨(k', v), List.mem_cons_self _ _, Or.inl (by rw [hp])⟩
      · obtain ⟨q', hq', hor⟩ := ih hp
        exact ⟨q', List.mem_cons_of_mem _ hq', hor⟩

/-- One `process_read` step only ever stores the record's own `read_info`. -/
theorem process_read_step_reads (ri : GFA.ReadInfo)
    (ni : List (String × GFA.NodeMeta)) (acc : List (String × GFA.MappedNode))
    (m : GFA.GMapping) (h : ∀ p ∈ acc, ∀ s ∈ p.2.reads, s = ri) :
    ∀ p ∈ GFA.process_read_step ri ni acc m, ∀ s ∈ p.2.reads, s = ri := by
  intro p hp s hs
  unfold GFA.process_read_step at hp
  cases hni : lookupFirst m.node_id ni with
  | none =>
    simp only [hni] at hp
    exact h p hp s hs
  | some meta =>
    simp only [hni] at hp
    have hbase : ∀ q ∈ (if (lookupFirst m.node_id acc).isSome then acc
        else acc ++ [(m.node_id, GFA.initEntry meta)]), ∀ t ∈ q.2.reads, t = ri := by
      by_cases hc : (lookupFirst m.node_id acc).isSome = true
      · rw [if_pos hc]; exact h
      · rw [if_neg hc]
        intro q hq t ht
        rcases List.mem_append.mp hq with hq | hq
        · exact h q hq t ht
        · simp only [List.mem_singleton] at hq
          rw [hq] at ht
          simp [GFA.initEntry] at ht
    obtain ⟨q, hq, hor⟩ := mem_extendReads hp
    rcases hor with he | he
    · exact hbase q hq s (he ▸ hs)
    · rw [he] at hs
      rcases List.mem_append.mp hs with hs | hs
      · exact hbase q hq s hs
      · simpa using hs

/-- The `process_read` fold preserves the "only this record's summary"
invariant. -/
theorem process_read_foldl_reads (ri : GFA.ReadInfo)
    (ni : List (String × GFA.NodeMeta)) :
    ∀ (ms : List GFA.GMapping) (acc : List (String × GFA.MappedNode)),
      (∀ p ∈ acc, ∀ s ∈ p.2.reads, s = ri) →
      ∀ p ∈ ms.foldl (GFA.process_read_step ri ni) acc, ∀ s ∈ p.2.reads, s = ri := by
  intro ms
  induction ms with
  | nil => intro acc h; simpa using h
  | cons m rest ih =>
    intro acc h
    simp only [List.foldl_cons]
    exact ih _ (process_read_step_reads ri ni acc m h)

/-- C7 amended: every summary a record stores under any node is exactly its
`read_info` projection — name, sequence, mapping_quality, score, quality
*and* the record's `path`, full Mapping list included. -/
theorem c7_summary_projection_with_path :
    ∀ (r : GFA.GRead) (ni : List (String × GFA.NodeMeta)) (nid : String)
      (g : GFA.MappedNode),
      lookupFirst nid (GFA.process_read r ni) = some g →
      List.Forall (fun s => s = GFA.read_info_of r) g.reads := by
  intro r ni nid g hg
  rw [List.forall_iff_forall_mem]
  intro s hs
  exact process_read_foldl_reads (GFA.read_info_of r) ni r.path.mapping []
    (by simp) (nid, g) (lookupFirst_mem hg) s hs

/-- Witness for the C7 amended theorem at the concrete record `readA`. -/
theorem c7_summary_projection_with_path_witness :
    List.Forall (fun s => s = GFA.read_info_of Samples.readA) Samples.gA.reads :=
  c7_summary_projection_with_path Samples.readA Samples.idxGFA "1" Samples.gA
    (by decide)

/-- The worker's mapping loop with its `break` equals: find the first
indexed mapping, append its summary to that mapping's region, stop. -/
theorem worker_loop_eq_first (name : String) (len : Nat)
    (seg : List (String × String)) :
    ∀ (ms : List FindReadsNew.NMapping) (data : RegionMap),
      FindReadsNew.worker_loop name len seg ms data =
        match ms.findSome? (FindReadsNew.mapping_hit name len seg) with
        | some hit => (appendAt hit.1 hit.2 data, true)
        | none => (data, false) := by
  intro ms
  induction ms with
  | nil => intro data; rfl
  | cons m rest ih =>
    intro data
    cases hpos : m.position with
    | none =>
      simp only [FindReadsNew.worker_loop, FindReadsNew.mapping_hit,
        List.findSome?_cons, hpos]
      exact ih data
    | some pos =>
      cases hnid : pos.node_id with
      | none =>
        simp only [FindReadsNew.worker_loop, FindReadsNew.mapping_hit,
          List.findSome?_cons, hpos, hnid]
        exact ih data
      | some nid =>
        cases hreg : lookupFirst nid seg with
        | none =>
          simp only [FindReadsNew.worker_loop, FindReadsNew.mapping_hit,
            List.findSome?_cons, hpos, hnid, hreg]
          exact ih data
        | some region =>
          simp only [FindReadsNew.worker_loop, FindReadsNew.mapping_hit,
            List.findSome?_cons, hpos, hnid, hreg]

/-- The protobuf worker's mapping loop, same shape. -/
theorem pb_worker_loop_eq_first (name : String) (len : Nat)
    (seg : List (String × String)) :
    ∀ (ms : List FindReadsPb.PbMapping) (data : RegionMap),
      FindReadsPb.worker_loop name len seg ms data =
        match ms.findSome? (FindReadsPb.mapping_hit name len seg) with
        | some hit => (appendAt hit.1 hit.2 data, true)
        | none => (data, false) := by
  intro ms
  induction ms with
  | nil => intro data; rfl
  | cons m rest ih =>
    intro data
    cases hreg : lookupFirst m.node_id seg with
    | none =>
      simp only [FindReadsPb.worker_loop, FindReadsPb.mapping_hit,
        List.findSome?_cons, hreg]
      exact ih data
    | some region =>
      simp only [FindReadsPb.worker_loop, FindReadsPb.mapping_hit,
        List.findSome?_cons, hreg]

/-- `appendAt` grows the total number of stored entries by at most one. -/
theorem total_reads_appendAt (region : String) (info : RInfo) :
    ∀ data : RegionMap,
      total_reads (appendAt region info data) ≤ total_reads data + 1 := by
  intro data
  induction data with
  | nil => simp [appendAt, total_reads]
  | cons p rest ih =>
    obtain ⟨k, rs⟩ := p
    by_cases h : k = region
    · simp [appendAt, h, total_reads]
      omega
    · simp only [appendAt, if_neg h, total_reads, List.map_cons, List.sum_cons] at ih ⊢
      omega

/-- The per-read worker effect equals the first-indexed-mapping spec. -/
theorem worker_read_eq_first (r : FindReadsNew.NRead)
    (seg : List (String × String)) (data : RegionMap) :
    FindReadsNew.process_gam_worker_read r seg data =
      match FindReadsNew.first_indexed r seg with
      | some hit => (appendAt hit.1 hit.2 data, true)
      | none => (data, false) := by
  unfold FindReadsNew.process_gam_worker_read FindReadsNew.first_indexed
  cases hp : r.path with
  | none => rfl
  | some ms => exact worker_loop_eq_first r.name r.sequence.length seg ms data

/-- C10: for every decoded read, the region-keyed worker appends exactly
one summary — to the region of the first mapping (in mapping-list order)
whose segment id is in the index, with a missing offset recorded as 0 (the
`getD 0` inside `mapping_hit`/`first_indexed`) — and otherwise leaves the
map untouched; in particular at most one aligned-read entry is added in
total. The protobuf variant satisfies the same first-match contract. -/
theorem c10_worker_first_match_only :
    ∀ (r : FindReadsNew.NRead) (seg : List (String × String)) (data : RegionMap),
      (FindReadsNew.process_gam_worker_read r seg data =
        match FindReadsNew.first_indexed r seg with
        | some hit => (appendAt hit.1 hit.2 data, true)
        | none => (data, false))
      ∧ total_reads (FindReadsNew.process_gam_worker_read r seg data).1
          ≤ total_reads data + 1
      ∧ ∀ (q : FindReadsPb.PbRead) (seg2 : List (String × String))
          (data2 : RegionMap),
          FindReadsPb.process_gam_worker_read q seg2 data2 =
            match FindReadsPb.first_indexed q seg2 with
            | some hit => (appendAt hit.1 hit.2 data2, true)
            | none => (data2, false) := by
  intro r seg data
  refine ⟨worker_read_eq_first r seg data, ?_, ?_⟩
  · rw [worker_read_eq_first r seg data]
    cases h : FindReadsNew.first_indexed r seg with
    | none => simp
    | some hit => simpa using total_reads_appendAt hit.1 hit.2 data
  · intro q seg2 data2
    unfold FindReadsPb.process_gam_worker_read FindReadsPb.first_indexed
    exact pb_worker_loop_eq_first q.name q.sequence.length seg2 q.path data2

/-- C5: an unparsable record between two valid records is recovered
locally. For `process_gam_file`, the run over `[valid, bad, valid]` yields
exactly the region map and processed-read counter of the run over
`[valid, valid]` — so the final Output (the dump of `json_data`) contains
both valid records' contributions and nothing else — plus one logged decode
diagnostic. For the GFA `filter_reads` loop, the decode failure likewise
leaves the merged-record counter (and hence the threshold crossings, which
are a function of it) unchanged. -/
theorem c5_decode_failure_locally_recovered :
    (∀ (r1 r2 : FindReadsNew.NRead) (seg : List (String × String))
        (data : RegionMap),
      FindReadsNew.process_gam_file [some r1, none, some r2] seg data
        = ((FindReadsNew.process_gam_file [some r1, some r2] seg data).1,
           (FindReadsNew.process_gam_file [some r1, some r2] seg data).2.1,
           (FindReadsNew.process_gam_file [some r1, some r2] seg data).2.2 + 1))
    ∧ ∀ (g1 g2 : GFA.GRead) (ni : List (String × GFA.NodeMeta)) (out : String),
        (GFA.filter_reads_state 5000000 out ni
            [some g1, none, some g2]).processed_count
          = (GFA.filter_reads_state 5000000 out ni
              [some g1, some g2]).processed_count := by
  constructor
  · intro r1 r2 seg data
    rfl
  · intro g1 g2 ni out
    by_cases h1 : GFA.process_read g1 ni = [] <;>
      by_cases h2 : GFA.process_read g2 ni = [] <;>
        simp [GFA.filter_reads_state, GFA.fr_step, h1, h2]
